import Mathlib

/-!
Verification of the Stay ambient-soundscape audio engine.

Shallow embedding of the JavaScript sources:
`src/audio/utils/NoiseGenerator.js`, `src/audio/utils/LoopPlayer.js`,
`src/audio/utils/WindPlayer.js`, `src/audio/utils/CafePlayer.js`,
`src/audio/utils/SampleLoader.js`, the `AudioAnalyzer` class,
`src/audio/AudioEngine.js` and the `switchScene` action of
`src/hooks/useStay.js`.

Conventions of the embedding:
* `Math.random()` is modelled as an explicit stream `rand : Nat -> Rat` of
  draws, each assumed to lie in `[0, 1)`.
* JavaScript floating-point numbers are modelled as exact rationals
  (reals where `Math.sqrt` is involved).
* Asset names, URLs, decoded audio buffers and audio nodes are modelled as
  natural-number atoms.
* Asynchronous `fetch`/decode results are modelled by an oracle
  `fetch : Nat -> Option Nat` giving, per URL, the decoded buffer or a
  failure.
-/

namespace Stay

/-! ## NoiseGenerator.js

The three buffer constructors fill a monophonic buffer of
`context.sampleRate * 2` samples.  The `i`-th sample depends only on the
first `i + 1` random draws, so a buffer is embedded as its size together
with the sample function. -/

/-- A generated noise buffer: `size` samples, `data i` the `i`-th sample. -/
structure NoiseBuffer where
  size : Nat
  data : Nat → ℚ

/-- A random stream models successive results of `Math.random()`:
every draw lies in `[0, 1)`. -/
def ValidRand (rand : Nat → ℚ) : Prop :=
  ∀ i, 0 ≤ rand i ∧ rand i < 1

/-- One white sample: `data[i] = Math.random() * 2 - 1`. -/
def whiteSample (rand : Nat → ℚ) (i : Nat) : ℚ :=
  rand i * 2 - 1

/-- `createWhiteNoise` (NoiseGenerator.js lines 11-25). -/
def createWhiteNoise (sampleRate : Nat) (rand : Nat → ℚ) : NoiseBuffer :=
  { size := sampleRate * 2, data := fun i => whiteSample rand i }

/-- The six leaky-integrator states `b0 .. b5` plus the delayed state `b6`
of the Kellet pink-noise filter (NoiseGenerator.js lines 39-55). -/
structure PinkState where
  b0 : ℚ
  b1 : ℚ
  b2 : ℚ
  b3 : ℚ
  b4 : ℚ
  b5 : ℚ
  b6 : ℚ

/-- One iteration of the pink-noise loop body: updates the filter states
from the white draw `w` and returns the new state together with the sample
written to the buffer (`pink * 0.11`). -/
def pinkStep (w : ℚ) (s : PinkState) : PinkState × ℚ :=
  let b0 := 0.99886 * s.b0 + w * 0.0555179
  let b1 := 0.99332 * s.b1 + w * 0.0750759
  let b2 := 0.96900 * s.b2 + w * 0.1538520
  let b3 := 0.86650 * s.b3 + w * 0.3104856
  let b4 := 0.55000 * s.b4 + w * 0.5329522
  let b5 := -0.7616 * s.b5 - w * 0.0168980
  let pink := b0 + b1 + b2 + b3 + b4 + b5 + s.b6 + w * 0.5362
  (⟨b0, b1, b2, b3, b4, b5, w * 0.115926⟩, pink * 0.11)

/-- State and sample after iteration `i` of the pink-noise loop
(all states start at `0`). -/
def pinkIter (rand : Nat → ℚ) : Nat → PinkState × ℚ
  | 0 => pinkStep (whiteSample rand 0) ⟨0, 0, 0, 0, 0, 0, 0⟩
  | n + 1 => pinkStep (whiteSample rand (n + 1)) (pinkIter rand n).1

/-- `createPinkNoise` (NoiseGenerator.js lines 33-63). -/
def createPinkNoise (sampleRate : Nat) (rand : Nat → ℚ) : NoiseBuffer :=
  { size := sampleRate * 2, data := fun i => (pinkIter rand i).2 }

/-- `lastOut` after `n` iterations of the brown-noise loop:
`lastOut = (lastOut + 0.02 * white) / 1.02`, starting from `0`. -/
def brownLastOut (rand : Nat → ℚ) : Nat → ℚ
  | 0 => 0
  | n + 1 => (brownLastOut rand n + 0.02 * whiteSample rand n) / 1.02

/-- `createBrownNoise` (NoiseGenerator.js lines 71-93):
`data[i] = lastOut * 3.5` after the `i`-th update of `lastOut`. -/
def createBrownNoise (sampleRate : Nat) (rand : Nat → ℚ) : NoiseBuffer :=
  { size := sampleRate * 2, data := fun i => brownLastOut rand (i + 1) * 3.5 }

/-! ## Random next-track selection

`LoopPlayer._getNextIndex` (LoopPlayer.js lines 91-102) and
`WindPlayer._getRandomBufferIndex` (WindPlayer.js lines 154-163) both draw
indices until the draw differs from the previous pick.  The do-while loop
is embedded with explicit fuel: `none` means the loop was still running
after `fuel` draws, `some j` that the call returned `j`.  The draws are an
explicit stream `pick : Nat -> Nat` (modelling
`Math.floor(Math.random() * len)`, so each draw is `< len`), consumed from
position `k`.  The previous index is an integer because `currentIndex`
starts at `-1`. -/

namespace LoopPlayer

/-- The do-while loop of `_getNextIndex`: draw `nextIndex`, repeat while
`nextIndex === this.currentIndex && this.buffers.length > 1`. -/
def pickLoop (pick : Nat → Nat) (len : Nat) (cur : ℤ) : Nat → Nat → Option ℤ
  | 0, _ => none
  | fuel + 1, k =>
    let j : ℤ := pick k
    if j = cur ∧ 1 < len then pickLoop pick len cur fuel (k + 1) else some j

/-- `LoopPlayer._getNextIndex`: `-1` when no buffer is loaded, `0` when a
single buffer is loaded, otherwise the retry loop. -/
def getNextIndex (pick : Nat → Nat) (len : Nat) (cur : ℤ) (fuel k : Nat) :
    Option ℤ :=
  if len = 0 then some (-1)
  else if len = 1 then some 0
  else pickLoop pick len cur fuel k

end LoopPlayer

namespace WindPlayer

/-- The do-while loop of `_getRandomBufferIndex`: repeat while
`index === this._currentBufferIndex` (no length condition here). -/
def pickLoop (pick : Nat → Nat) (cur : ℤ) : Nat → Nat → Option ℤ
  | 0, _ => none
  | fuel + 1, k =>
    let j : ℤ := pick k
    if j = cur then pickLoop pick cur fuel (k + 1) else some j

/-- `WindPlayer._getRandomBufferIndex`: `0` when exactly one recording is
loaded, otherwise the retry loop. -/
def getRandomBufferIndex (pick : Nat → Nat) (len : Nat) (cur : ℤ)
    (fuel k : Nat) : Option ℤ :=
  if len = 1 then some 0
  else pickLoop pick cur fuel k

end WindPlayer

/-! ## Theorems about pick selection (claim C2) -/

theorem LoopPlayer.loopPickLoop_ne (pick : Nat → Nat) (len : Nat) (cur j : ℤ)
    (hlen : 1 < len) :
    ∀ fuel k, LoopPlayer.pickLoop pick len cur fuel k = some j → j ≠ cur := by
  intro fuel
  induction fuel with
  | zero => intro k h; simp [LoopPlayer.pickLoop] at h
  | succ n ih =>
    intro k h
    rw [LoopPlayer.pickLoop] at h
    by_cases hc : ((pick k : ℤ) = cur ∧ 1 < len)
    · rw [if_pos hc] at h
      exact ih (k + 1) h
    · rw [if_neg hc] at h
      have hj : (pick k : ℤ) = j := Option.some.inj h
      intro hjc
      exact hc ⟨hj.trans hjc, hlen⟩

theorem WindPlayer.windPickLoop_ne (pick : Nat → Nat) (cur j : ℤ) :
    ∀ fuel k, WindPlayer.pickLoop pick cur fuel k = some j → j ≠ cur := by
  intro fuel
  induction fuel with
  | zero => intro k h; simp [WindPlayer.pickLoop] at h
  | succ n ih =>
    intro k h
    rw [WindPlayer.pickLoop] at h
    by_cases hc : ((pick k : ℤ) = cur)
    · rw [if_pos hc] at h
      exact ih (k + 1) h
    · rw [if_neg hc] at h
      have hj : (pick k : ℤ) = j := Option.some.inj h
      intro hjc
      exact hc (hj.trans hjc)

/-- Claim C2: with more than one loaded buffer, each next-track selection of
`LoopPlayer._getNextIndex` and of `WindPlayer._getRandomBufferIndex` that
returns an index returns one different from the immediately-previous pick;
consequently, in any sequence of successive picks (each call starting from
the index the previous call returned), no two consecutive picks are
identical. -/
theorem nextIndex_never_repeats_previous (pick : Nat → Nat) (len : Nat)
    (hlen : 1 < len) (cur : ℤ) (fuel k : Nat) (j : ℤ) :
    (LoopPlayer.getNextIndex pick len cur fuel k = some j → j ≠ cur) ∧
    (WindPlayer.getRandomBufferIndex pick len cur fuel k = some j → j ≠ cur) ∧
    (∀ (s : Nat → ℤ) (pk : Nat → Nat → Nat) (fl ps : Nat → Nat),
      (∀ m, LoopPlayer.getNextIndex (pk m) len (s m) (fl m) (ps m) =
        some (s (m + 1))) →
      ∀ m, s (m + 1) ≠ s m) := by
  have hne0 : len ≠ 0 := by omega
  have hne1 : len ≠ 1 := by omega
  refine ⟨?_, ?_, ?_⟩
  · intro h
    rw [LoopPlayer.getNextIndex, if_neg hne0, if_neg hne1] at h
    exact LoopPlayer.loopPickLoop_ne pick len cur j hlen fuel k h
  · intro h
    rw [WindPlayer.getRandomBufferIndex, if_neg hne1] at h
    exact WindPlayer.windPickLoop_ne pick cur j fuel k h
  · intro s pk fl ps hs m
    have h := hs m
    rw [LoopPlayer.getNextIndex, if_neg hne0, if_neg hne1] at h
    exact LoopPlayer.loopPickLoop_ne (pk m) len (s m) (s (m + 1)) hlen (fl m)
      (ps m) h

/-- Witness for C2: a concrete pick (stream constantly `0`, two buffers,
previous pick `1`) returns `0`, which differs from `1`. -/
theorem nextIndex_never_repeats_previous_witness : (0 : ℤ) ≠ 1 :=
  (nextIndex_never_repeats_previous (fun _ => 0) 2 (by decide) 1 1 0
    0).1 (by decide)

/-! ## Theorems about noise sample ranges (claim C3) -/

/-- A concrete adversarial random stream: every draw is `0.999`. -/
def cexRand : Nat → ℚ := fun _ => 999 / 1000

/-- The bounds of `brownLastOut`: with every white draw in `[-1, 1)`, the
leaky integrator stays strictly inside `(-1, 1)`. -/
theorem brownLastOut_bounds (rand : Nat → ℚ) (hr : ValidRand rand) :
    ∀ n, -1 < brownLastOut rand n ∧ brownLastOut rand n < 1 := by
  intro n
  induction n with
  | zero => constructor <;> norm_num [brownLastOut]
  | succ m ih =>
    obtain ⟨hlo, hhi⟩ := ih
    obtain ⟨hr0, hr1⟩ := hr m
    rw [brownLastOut, whiteSample]
    constructor
    · rw [lt_div_iff₀ (by norm_num : (0:ℚ) < 1.02)]
      nlinarith
    · rw [div_lt_iff₀ (by norm_num : (0:ℚ) < 1.02)]
      nlinarith

/-- Counterexample to C3 as stated: for the legal random stream whose draws
are all `0.999`, the brown-noise buffer's sample at index `17` and the
pink-noise buffer's sample at index `21` both exceed `1` (indices well
inside a buffer generated at sample rate 8000). -/
theorem noise_sample_range_counterexample :
    ValidRand cexRand ∧
    17 < (createBrownNoise 8000 cexRand).size ∧
    1 < (createBrownNoise 8000 cexRand).data 17 ∧
    21 < (createPinkNoise 8000 cexRand).size ∧
    1 < (createPinkNoise 8000 cexRand).data 21 := by
  refine ⟨fun i => ⟨by norm_num [cexRand], by norm_num [cexRand]⟩, ?_, ?_, ?_, ?_⟩
  · norm_num [createBrownNoise]
  · norm_num [createBrownNoise, brownLastOut, whiteSample, cexRand]
  · norm_num [createPinkNoise]
  · norm_num [createPinkNoise, pinkIter, pinkStep, whiteSample, cexRand]

/-- Claim C3, amended: every sample of the white-noise buffer lies within
`[-1, 1]` for every legal random stream, and every sample of the brown-noise
buffer lies strictly within `(-3.5, 3.5)`; but the pink and brown buffers
are not confined to `[-1, 1]`: for some legal random streams a pink sample
and a brown sample exceed `1`. -/
theorem noise_sample_range_amended (rand : Nat → ℚ) (hr : ValidRand rand)
    (sampleRate i : Nat) :
    (-1 ≤ (createWhiteNoise sampleRate rand).data i ∧
      (createWhiteNoise sampleRate rand).data i ≤ 1) ∧
    (-(7/2) < (createBrownNoise sampleRate rand).data i ∧
      (createBrownNoise sampleRate rand).data i < 7/2) ∧
    (1 < (createPinkNoise 8000 cexRand).data 21 ∧
      1 < (createBrownNoise 8000 cexRand).data 17) := by
  obtain ⟨h0, h1⟩ := hr i
  obtain ⟨blo, bhi⟩ := brownLastOut_bounds rand hr (i + 1)
  refine ⟨⟨?_, ?_⟩, ⟨?_, ?_⟩, ?_, ?_⟩
  · simp only [createWhiteNoise, whiteSample]
    linarith
  · simp only [createWhiteNoise, whiteSample]
    linarith
  · simp only [createBrownNoise]
    nlinarith
  · simp only [createBrownNoise]
    nlinarith
  · norm_num [createPinkNoise, pinkIter, pinkStep, whiteSample, cexRand]
  · norm_num [createBrownNoise, brownLastOut, whiteSample, cexRand]

/-- Witness for the amended C3 at the all-zero random stream. -/
theorem noise_sample_range_amended_witness :
    -1 ≤ (createWhiteNoise 1 (fun _ => 0)).data 0 ∧
    (createWhiteNoise 1 (fun _ => 0)).data 0 ≤ 1 :=
  (noise_sample_range_amended (fun _ => 0)
    (fun _ => ⟨le_refl 0, zero_lt_one⟩) 1 0).1

/-! ## AudioAnalyzer

Embedding of the `AudioAnalyzer` class.  Byte arrays
(`getByteFrequencyData` / `getByteTimeDomainData` results) are modelled as
functions `Nat -> Nat` whose entries are assumed `<= 255`.  The state lives
in the reals because `_getRMSVolume` takes a square root. -/

/-- The four-component analysis snapshot (`this.smoothedData`). -/
structure Snapshot where
  lowFrequency : ℝ
  midFrequency : ℝ
  highFrequency : ℝ
  volume : ℝ

/-- All four snapshot components lie in `[0, 1]`. -/
def Snapshot.InRange (s : Snapshot) : Prop :=
  (0 ≤ s.lowFrequency ∧ s.lowFrequency ≤ 1) ∧
  (0 ≤ s.midFrequency ∧ s.midFrequency ≤ 1) ∧
  (0 ≤ s.highFrequency ∧ s.highFrequency ≤ 1) ∧
  (0 ≤ s.volume ∧ s.volume ≤ 1)

/-- Byte-valued input data: every entry lies in `0 .. 255`. -/
def ValidBytes (d : Nat → Nat) : Prop :=
  ∀ i, d i ≤ 255

namespace AudioAnalyzer

/-- `Math.floor(hz / (nyquist / binCount))` with `nyquist = sampleRate / 2`:
the floor of an exact rational equals natural division. -/
def binIndex (hz binCount sampleRate : Nat) : Nat :=
  2 * hz * binCount / sampleRate

/-- Analyzer state: the smoothed snapshot, the EMA factor, the number of
frequency bins and the precomputed band boundaries (`midBinStart` equals
`lowBinEnd` and `highBinStart` equals `midBinEnd` in the source, so they
are not stored twice). -/
structure State where
  smoothedData : Snapshot
  smoothingFactor : ℝ
  frequencyBinCount : Nat
  lowBinStart : Nat
  lowBinEnd : Nat
  midBinEnd : Nat
  highBinEnd : Nat

/-- The constructor: zeroed snapshot, factor `0.15`,
`frequencyBinCount = fftSize / 2`, band bounds at 20 / 250 / 2000 / 8000 Hz. -/
noncomputable def mk (sampleRate fftSize : Nat) : State :=
  { smoothedData := ⟨0, 0, 0, 0⟩
    smoothingFactor := 0.15
    frequencyBinCount := fftSize / 2
    lowBinStart := binIndex 20 (fftSize / 2) sampleRate
    lowBinEnd := binIndex 250 (fftSize / 2) sampleRate
    midBinEnd := binIndex 2000 (fftSize / 2) sampleRate
    highBinEnd := binIndex 8000 (fftSize / 2) sampleRate }

/-- `_getAverageEnergy(startBin, endBin)`: average the bins of
`frequencyData` in `[startBin, min endBin frequencyBinCount)` and divide by
255; `0` when the window is empty. -/
noncomputable def averageEnergy (freq : Nat → Nat) (startBin endBin binCount : Nat) : ℝ :=
  let clampedEnd := min endBin binCount
  if clampedEnd ≤ startBin then 0
  else (∑ i ∈ Finset.Ico startBin clampedEnd, (freq i : ℝ)) /
    (clampedEnd - startBin : Nat) / 255

/-- `_getRMSVolume()`: root-mean-square of the recentred time-domain bytes,
doubled and clamped to `1`. -/
noncomputable def rmsVolume (td : Nat → Nat) (n : Nat) : ℝ :=
  min (Real.sqrt ((∑ i ∈ Finset.range n, (((td i : ℝ) - 128) / 128) ^ 2) / n) * 2) 1

/-- `_smooth(currentSmoothed, newValue)`: exponential moving average. -/
noncomputable def smooth (factor currentSmoothed newValue : ℝ) : ℝ :=
  currentSmoothed * (1 - factor) + newValue * factor

/-- `update()`: recompute the three band energies and the RMS volume from
the fresh byte data and fold them into the smoothed snapshot. -/
noncomputable def update (st : State) (freq td : Nat → Nat) : State :=
  let rawLow := averageEnergy freq st.lowBinStart st.lowBinEnd st.frequencyBinCount
  let rawMid := averageEnergy freq st.lowBinEnd st.midBinEnd st.frequencyBinCount
  let rawHigh := averageEnergy freq st.midBinEnd st.highBinEnd st.frequencyBinCount
  let rawVolume := rmsVolume td st.frequencyBinCount
  { st with smoothedData :=
    ⟨smooth st.smoothingFactor st.smoothedData.lowFrequency rawLow,
     smooth st.smoothingFactor st.smoothedData.midFrequency rawMid,
     smooth st.smoothingFactor st.smoothedData.highFrequency rawHigh,
     smooth st.smoothingFactor st.smoothedData.volume rawVolume⟩ }

/-- `reset()`: zero the smoothed snapshot. -/
def reset (st : State) : State :=
  { st with smoothedData := ⟨0, 0, 0, 0⟩ }

/-- `setSmoothingFactor(factor)`: clamp the factor to `[0.01, 1]`. -/
noncomputable def setSmoothingFactor (st : State) (factor : ℝ) : State :=
  { st with smoothingFactor := max 0.01 (min 1 factor) }

/-- `getData()`: a snapshot copy of the smoothed data. -/
def getData (st : State) : Snapshot :=
  st.smoothedData

/-- The operations a caller can interleave on one analyzer. -/
inductive Op
  | update (freq td : Nat → Nat)
  | reset
  | setSmoothingFactor (factor : ℝ)

/-- Apply one operation. -/
noncomputable def applyOp (st : State) : Op → State
  | .update freq td => update st freq td
  | .reset => reset st
  | .setSmoothingFactor f => setSmoothingFactor st f

/-- Run a sequence of operations. -/
noncomputable def runOps (ops : List Op) (st : State) : State :=
  ops.foldl applyOp st

/-- The inductive invariant: snapshot in `[0,1]^4` and factor in `[0,1]`. -/
def Invariant (st : State) : Prop :=
  st.smoothedData.InRange ∧ 0 ≤ st.smoothingFactor ∧ st.smoothingFactor ≤ 1

end AudioAnalyzer

/-! ## Theorems about the analyzer (claim C4) -/

theorem averageEnergy_mem (freq : Nat → Nat) (hf : ValidBytes freq)
    (startBin endBin binCount : Nat) :
    0 ≤ AudioAnalyzer.averageEnergy freq startBin endBin binCount ∧
    AudioAnalyzer.averageEnergy freq startBin endBin binCount ≤ 1 := by
  rw [AudioAnalyzer.averageEnergy]
  set ce := min endBin binCount with hce
  by_cases h : ce ≤ startBin
  · rw [if_pos h]
    norm_num
  · rw [if_neg h]
    push_neg at h
    have hcard : ((ce - startBin : Nat) : ℝ) > 0 := by
      have : 0 < ce - startBin := by omega
      exact_mod_cast this
    have hsum0 : 0 ≤ ∑ i ∈ Finset.Ico startBin ce, (freq i : ℝ) :=
      Finset.sum_nonneg fun i _ => by positivity
    constructor
    · positivity
    · rw [div_div, div_le_one (by positivity)]
      have hbound : ∑ i ∈ Finset.Ico startBin ce, (freq i : ℝ) ≤
          ∑ _i ∈ Finset.Ico startBin ce, (255 : ℝ) :=
        Finset.sum_le_sum fun i _ => by exact_mod_cast hf i
      have hcardIco : ((Finset.Ico startBin ce).card : ℝ) = (ce - startBin : Nat) := by
        rw [Nat.card_Ico]
      calc ∑ i ∈ Finset.Ico startBin ce, (freq i : ℝ)
          ≤ ∑ _i ∈ Finset.Ico startBin ce, (255 : ℝ) := hbound
        _ = ((ce - startBin : Nat) : ℝ) * 255 := by
            rw [Finset.sum_const, nsmul_eq_mul, hcardIco]

theorem rmsVolume_mem (td : Nat → Nat) (n : Nat) :
    0 ≤ AudioAnalyzer.rmsVolume td n ∧ AudioAnalyzer.rmsVolume td n ≤ 1 := by
  rw [AudioAnalyzer.rmsVolume]
  constructor
  · apply le_min
    · positivity
    · norm_num
  · exact min_le_right _ _

theorem smooth_mem (factor cur new : ℝ) (hf0 : 0 ≤ factor) (hf1 : factor ≤ 1)
    (hc : 0 ≤ cur ∧ cur ≤ 1) (hn : 0 ≤ new ∧ new ≤ 1) :
    0 ≤ AudioAnalyzer.smooth factor cur new ∧
    AudioAnalyzer.smooth factor cur new ≤ 1 := by
  obtain ⟨hc0, hc1⟩ := hc
  obtain ⟨hn0, hn1⟩ := hn
  rw [AudioAnalyzer.smooth]
  constructor
  · nlinarith
  · nlinarith

theorem analyzer_invariant_step (st : AudioAnalyzer.State)
    (hinv : AudioAnalyzer.Invariant st) (op : AudioAnalyzer.Op)
    (hop : ∀ freq td, op = AudioAnalyzer.Op.update freq td →
      ValidBytes freq ∧ ValidBytes td) :
    AudioAnalyzer.Invariant (AudioAnalyzer.applyOp st op) := by
  obtain ⟨⟨hl, hm, hh, hv⟩, hf0, hf1⟩ := hinv
  cases op with
  | update freq td =>
    obtain ⟨hfreq, _⟩ := hop freq td rfl
    refine ⟨⟨?_, ?_, ?_, ?_⟩, hf0, hf1⟩ <;>
      simp only [AudioAnalyzer.applyOp, AudioAnalyzer.update]
    · exact smooth_mem _ _ _ hf0 hf1 hl (averageEnergy_mem freq hfreq _ _ _)
    · exact smooth_mem _ _ _ hf0 hf1 hm (averageEnergy_mem freq hfreq _ _ _)
    · exact smooth_mem _ _ _ hf0 hf1 hh (averageEnergy_mem freq hfreq _ _ _)
    · exact smooth_mem _ _ _ hf0 hf1 hv (rmsVolume_mem td _)
  | reset =>
    refine ⟨⟨?_, ?_, ?_, ?_⟩, hf0, hf1⟩ <;>
      simp [AudioAnalyzer.applyOp, AudioAnalyzer.reset]
  | setSmoothingFactor f =>
    refine ⟨⟨hl, hm, hh, hv⟩, ?_, ?_⟩ <;>
      simp only [AudioAnalyzer.applyOp, AudioAnalyzer.setSmoothingFactor]
    · have : (0:ℝ) ≤ 0.01 := by norm_num
      exact le_trans this (le_max_left _ _)
    · apply max_le
      · norm_num
      · exact min_le_left _ _

/-- Claim C4: the freshly constructed analyzer's snapshot lies in `[0,1]^4`,
and after any sequence of `update` (with byte-valued inputs), `reset` and
`setSmoothingFactor` operations, every component of the snapshot returned
by `getData` still lies in `[0, 1]`. -/
theorem analyzer_snapshot_unit_range (sampleRate fftSize : Nat)
    (ops : List AudioAnalyzer.Op)
    (hops : ∀ freq td, AudioAnalyzer.Op.update freq td ∈ ops →
      ValidBytes freq ∧ ValidBytes td) :
    (AudioAnalyzer.getData (AudioAnalyzer.mk sampleRate fftSize)).InRange ∧
    (AudioAnalyzer.getData
      (AudioAnalyzer.runOps ops (AudioAnalyzer.mk sampleRate fftSize))).InRange := by
  have hmk : AudioAnalyzer.Invariant (AudioAnalyzer.mk sampleRate fftSize) := by
    refine ⟨⟨?_, ?_, ?_, ?_⟩, ?_, ?_⟩ <;> norm_num [AudioAnalyzer.mk]
  refine ⟨hmk.1, ?_⟩
  suffices h : ∀ (l : List AudioAnalyzer.Op) (st : AudioAnalyzer.State),
      AudioAnalyzer.Invariant st →
      (∀ freq td, AudioAnalyzer.Op.update freq td ∈ l →
        ValidBytes freq ∧ ValidBytes td) →
      AudioAnalyzer.Invariant (AudioAnalyzer.runOps l st) by
    exact (h ops _ hmk hops).1
  intro l
  induction l with
  | nil => intro st hst _; exact hst
  | cons op rest ih =>
    intro st hst hl
    rw [AudioAnalyzer.runOps, List.foldl_cons]
    refine ih _ ?_ ?_
    · refine analyzer_invariant_step st hst op ?_
      intro freq td heq
      exact hl freq td (heq ▸ List.mem_cons_self op rest)
    · intro freq td hmem
      exact hl freq td (List.mem_cons_of_mem op hmem)

/-- Witness for C4: a run consisting of a reset, a factor change and an
all-zero-byte update keeps the snapshot in range. -/
theorem analyzer_snapshot_unit_range_witness :
    (AudioAnalyzer.getData (AudioAnalyzer.mk 44100 2048)).InRange ∧
    (AudioAnalyzer.getData (AudioAnalyzer.runOps
      [AudioAnalyzer.Op.reset, AudioAnalyzer.Op.setSmoothingFactor 2,
        AudioAnalyzer.Op.update (fun _ => 0) (fun _ => 128)]
      (AudioAnalyzer.mk 44100 2048))).InRange :=
  analyzer_snapshot_unit_range 44100 2048 _
    (fun freq td hmem => by
      simp only [List.mem_cons, List.not_mem_nil, or_false,
        AudioAnalyzer.Op.update.injEq] at hmem
      rcases hmem with h | h | ⟨h1, h2⟩
      · exact absurd h (by simp)
      · exact absurd h (by simp)
      · subst h1
        subst h2
        exact ⟨fun i => (by decide : (0:Nat) ≤ 255),
          fun i => (by decide : (128:Nat) ≤ 255)⟩)

/-! ## SampleLoader.js

Sample names, URLs, decoded buffers, promises and audio nodes are
natural-number atoms.  The two `Map`s are association lists where a newer
binding for a key shadows an older one, matching `Map.set` /
`Map.delete` / `Map.has` semantics under the lookup below. -/

/-- First binding of key `k`, the `Map.get` of the embedding. -/
def assocFind {β : Type} (k : Nat) : List (Nat × β) → Option β
  | [] => none
  | (k', v) :: rest => if k' = k then some v else assocFind k rest

/-- `Map.set`: a fresh binding that shadows any older one. -/
def assocInsert {β : Type} (k : Nat) (v : β) (l : List (Nat × β)) :
    List (Nat × β) :=
  (k, v) :: l

/-- `Map.delete`: remove every binding of `k`. -/
def assocErase {β : Type} (k : Nat) : List (Nat × β) → List (Nat × β)
  | [] => []
  | (k', v) :: rest =>
    if k' = k then assocErase k rest else (k', v) :: assocErase k rest

theorem assocErase_of_find_none {β : Type} (k : Nat) :
    ∀ l : List (Nat × β), assocFind k l = none → assocErase k l = l := by
  intro l
  induction l with
  | nil => intro _; rfl
  | cons hd tl ih =>
    intro h
    rw [assocFind] at h
    by_cases hk : hd.1 = k
    · rw [if_pos hk] at h
      exact absurd h (by simp)
    · rw [if_neg hk] at h
      rw [assocErase, if_neg hk, ih h]

namespace SampleLoader

/-- The loader's mutable state: `this.buffers` and `this.loading`. -/
structure State where
  buffers : List (Nat × Nat)
  loading : List (Nat × Nat)

/-- What a single `load(name, url)` call does from the caller's point of
view. -/
inductive LoadOutcome
  /-- returned the cached buffer -/
  | cached (buffer : Nat)
  /-- awaited and returned the already-in-flight promise -/
  | pending (promise : Nat)
  /-- fetched, decoded, cached and returned a fresh buffer -/
  | resolved (buffer : Nat)
  /-- the fetch/decode failed and the call rethrows -/
  | rejected
  deriving DecidableEq

/-- `load(name, url)` (SampleLoader.js lines 22-48).  `fetchResult` is the
oracle for `_fetchAndDecode(url)` (`none` = reject), `freshPromise` the
identity of the promise a fresh call would create.  Returns the new state,
the outcome, and whether a fetch was issued. -/
def load (name : Nat) (fetchResult : Option Nat) (freshPromise : Nat)
    (st : State) : State × LoadOutcome × Bool :=
  match assocFind name st.buffers with
  | some b => (st, .cached b, false)
  | none =>
    match assocFind name st.loading with
    | some p => (st, .pending p, false)
    | none =>
      let loading₁ := assocInsert name freshPromise st.loading
      match fetchResult with
      | some b =>
        (⟨assocInsert name b st.buffers, assocErase name loading₁⟩,
          .resolved b, true)
      | none => (⟨st.buffers, assocErase name loading₁⟩, .rejected, true)

/-- Options of `play(name, options)`; a `none` field was omitted by the
caller and falls back to the documented default. -/
structure PlayOptions where
  destination : Option Nat
  volume : Option ℚ
  playbackRate : Option ℚ
  detune : Option ℚ

/-- The one-shot voice `play` builds when the sample is cached: one buffer
source (with rate/detune, started) wired through one gain node (with the
requested volume) into the destination. -/
structure Voice where
  buffer : Nat
  playbackRate : ℚ
  detune : ℚ
  gainValue : ℚ
  gainDestination : Nat
  started : Bool

/-- `play(name, options)` (SampleLoader.js lines 99-137).  `ctxDestination`
is `this.context.destination`.  Returns the unchanged maps, the voice (or
`null`), and the numbers of buffer-source and gain nodes created. -/
def play (name : Nat) (opts : PlayOptions) (ctxDestination : Nat)
    (st : State) : State × Option Voice × Nat × Nat :=
  match assocFind name st.buffers with
  | none => (st, none, 0, 0)
  | some b =>
    (st,
      some
        { buffer := b
          playbackRate := opts.playbackRate.getD 1
          detune := opts.detune.getD 0
          gainValue := opts.volume.getD 1
          gainDestination := opts.destination.getD ctxDestination
          started := true },
      1, 1)

end SampleLoader

/-! ## Theorems about the sample loader (claims C9 and C10) -/

/-- Claim C9: `load` returns the cached buffer without fetching when the
name is cached; joins the in-flight promise without fetching when one
exists; otherwise fetches, and on success caches the buffer under the name
while the in-flight map ends without it; on failure the whole state is
exactly as before the call (the name absent from both maps) and the call
rejects, while a subsequent call with a working fetch retries and
succeeds. -/
theorem sampleLoader_load_spec (st : SampleLoader.State) (name : Nat)
    (fetchResult : Option Nat) (freshPromise : Nat) :
    (∀ b, assocFind name st.buffers = some b →
      SampleLoader.load name fetchResult freshPromise st =
        (st, .cached b, false)) ∧
    (assocFind name st.buffers = none →
      ∀ p, assocFind name st.loading = some p →
        SampleLoader.load name fetchResult freshPromise st =
          (st, .pending p, false)) ∧
    (assocFind name st.buffers = none →
      assocFind name st.loading = none →
      ∀ b, fetchResult = some b →
        SampleLoader.load name fetchResult freshPromise st =
          (⟨assocInsert name b st.buffers, st.loading⟩, .resolved b, true) ∧
        assocFind name
          (SampleLoader.load name fetchResult freshPromise st).1.buffers =
            some b) ∧
    (assocFind name st.buffers = none →
      assocFind name st.loading = none →
      fetchResult = none →
        SampleLoader.load name fetchResult freshPromise st =
          (st, .rejected, true) ∧
        ∀ b p', SampleLoader.load name (some b) p'
            (SampleLoader.load name fetchResult freshPromise st).1 =
          (⟨assocInsert name b st.buffers, st.loading⟩, .resolved b, true)) := by
  refine ⟨?_, ?_, ?_, ?_⟩
  · intro b hb
    rw [SampleLoader.load, hb]
  · intro hb p hp
    rw [SampleLoader.load, hb, hp]
  · intro hb hp b hf
    have herase : assocErase name (assocInsert name freshPromise st.loading) =
        st.loading := by
      rw [assocInsert, assocErase, if_pos rfl, assocErase_of_find_none name _ hp]
    constructor
    · rw [SampleLoader.load, hb, hp, hf]
      simp only [herase]
    · rw [SampleLoader.load, hb, hp, hf]
      simp [assocInsert, assocFind]
  · intro hb hp hf
    have herase : ∀ q, assocErase name (assocInsert name q st.loading) =
        st.loading := by
      intro q
      rw [assocInsert, assocErase, if_pos rfl, assocErase_of_find_none name _ hp]
    have hfirst : SampleLoader.load name fetchResult freshPromise st =
        (st, .rejected, true) := by
      rw [SampleLoader.load, hb, hp, hf]
      simp only [herase]
    refine ⟨hfirst, ?_⟩
    intro b p'
    rw [hfirst]
    rw [SampleLoader.load, hb, hp]
    simp only [herase]

/-- Witness for C9 at a concrete state: loading the uncached name `2` with
a failing fetch leaves the state untouched and a retry succeeds. -/
theorem sampleLoader_load_spec_witness :
    SampleLoader.load 2 none 9 ⟨[(1, 10)], []⟩ =
      (⟨[(1, 10)], []⟩, .rejected, true) ∧
    ∀ b p', SampleLoader.load 2 (some b) p'
        (SampleLoader.load 2 none 9 ⟨[(1, 10)], []⟩).1 =
      (⟨assocInsert 2 b [(1, 10)], []⟩, .resolved b, true) :=
  (sampleLoader_load_spec ⟨[(1, 10)], []⟩ 2 none 9).2.2.2 (by decide)
    (by decide) rfl

/-- Claim C10: `play(name, options)` on an uncached name returns `null`,
creates no nodes and leaves the maps untouched; on a cached name it creates
exactly one started buffer source (with the requested playback rate and
detune, defaulting to 1 and 0) routed through exactly one gain node (with
the requested volume, defaulting to 1) into the requested destination
(defaulting to the context destination), and returns that voice. -/
theorem sampleLoader_play_spec (st : SampleLoader.State) (name : Nat)
    (opts : SampleLoader.PlayOptions) (ctxDestination : Nat) :
    (assocFind name st.buffers = none →
      SampleLoader.play name opts ctxDestination st = (st, none, 0, 0)) ∧
    (∀ b, assocFind name st.buffers = some b →
      SampleLoader.play name opts ctxDestination st =
        (st,
          some
            { buffer := b
              playbackRate := opts.playbackRate.getD 1
              detune := opts.detune.getD 0
              gainValue := opts.volume.getD 1
              gainDestination := opts.destination.getD ctxDestination
              started := true },
          1, 1)) := by
  constructor
  · intro hb
    rw [SampleLoader.play, hb]
  · intro b hb
    rw [SampleLoader.play, hb]

/-- Witness for C10: playing the uncached name `5` returns `null` with no
nodes created, at a concrete state. -/
theorem sampleLoader_play_spec_witness :
    SampleLoader.play 5 ⟨none, none, none, none⟩ 0 ⟨[(1, 10)], []⟩ =
      (⟨[(1, 10)], []⟩, none, 0, 0) :=
  (sampleLoader_play_spec ⟨[(1, 10)], []⟩ 5 ⟨none, none, none, none⟩ 0).1
    (by decide)

/-! ## AudioEngine.js

Scene identifiers, URLs and buffers are natural-number atoms; the scene
configurations mirror `DEFAULT_SCENES` / `SceneConfig`.  Per-asset
fetch-and-decode results come from the oracle `fetch : Nat -> Option Nat`.
The untimed engine model tracks, per player, the loaded buffers and the
`isLoaded` / `isPlaying` flags; the timer-level behaviour inside a player
(track scheduling, C2) and the wall-clock behaviour of `stop` (C7) are
modelled separately. -/

/-- A scene configuration (`options.scenes[scene]`): a plain `LoopPlayer`
file list, a `CafePlayer` config, or a `WindPlayer` config. -/
inductive SceneConfig
  | loop (files : List Nat) (crossfadeDuration : ℚ)
  | cafe (ambience : Option Nat) (sfx : List Nat) (sfxInterval : ℚ)
  | wind (softWindFiles : List Nat) (synthMix recordingMix crossfadeDuration : ℚ)

/-- `LoopPlayer` engine-level state after `load(urls)`:
`buffers` keeps the successfully decoded files in order,
`isLoaded = buffers.length > 0` (LoopPlayer.js lines 51-85). -/
structure LoopPlayerState where
  buffers : List Nat
  isLoaded : Bool
  isPlaying : Bool

/-- `CafePlayer` state after `load()`: `isLoaded` iff the ambience decoded
(CafePlayer.js lines 66-92). -/
structure CafePlayerState where
  ambienceBuffer : Option Nat
  sfxBuffers : List Nat
  isLoaded : Bool
  isPlaying : Bool

/-- `WindPlayer` state after `load()`: `isLoaded` is set unconditionally,
recordings or not (WindPlayer.js lines 68-93). -/
structure WindPlayerState where
  recordingBuffers : List Nat
  isLoaded : Bool
  isPlaying : Bool

/-- One of the three scene-player variants. -/
inductive Player
  | loop (p : LoopPlayerState)
  | cafe (p : CafePlayerState)
  | wind (p : WindPlayerState)

/-- `player.isLoaded`. -/
def Player.isLoaded : Player → Bool
  | .loop p => p.isLoaded
  | .cafe p => p.isLoaded
  | .wind p => p.isLoaded

/-- `player.isPlaying`. -/
def Player.isPlaying : Player → Bool
  | .loop p => p.isPlaying
  | .cafe p => p.isPlaying
  | .wind p => p.isPlaying

/-- `player.start()`: each variant returns unless loaded and not already
playing, then marks itself playing (the loop variant then runs
`_playNext`, whose pick logic is the subject of C2). -/
def Player.start : Player → Player
  | .loop p => if p.isLoaded ∧ ¬p.isPlaying then .loop { p with isPlaying := true } else .loop p
  | .cafe p => if p.isLoaded ∧ ¬p.isPlaying then .cafe { p with isPlaying := true } else .cafe p
  | .wind p => if p.isLoaded ∧ ¬p.isPlaying then .wind { p with isPlaying := true } else .wind p

/-- `player.stop(fadeTime)` at the engine level of abstraction: a no-op on
a non-playing player, otherwise the player stops scheduling and is no
longer playing (the wall-clock ordering of the fade is modelled for C7). -/
def Player.stop (_fadeTime : ℚ) : Player → Player
  | .loop p => if p.isPlaying then .loop { p with isPlaying := false } else .loop p
  | .cafe p => if p.isPlaying then .cafe { p with isPlaying := false } else .cafe p
  | .wind p => if p.isPlaying then .wind { p with isPlaying := false } else .wind p

/-- `LoopPlayer.load(urls)`. -/
def loadLoopPlayer (files : List Nat) (fetch : Nat → Option Nat) : LoopPlayerState :=
  let bufs := files.filterMap fetch
  ⟨bufs, !bufs.isEmpty, false⟩

/-- `CafePlayer.load()`. -/
def loadCafePlayer (ambience : Option Nat) (sfx : List Nat)
    (fetch : Nat → Option Nat) : CafePlayerState :=
  let amb := ambience.bind fetch
  ⟨amb, sfx.filterMap fetch, amb.isSome, false⟩

/-- `WindPlayer.load()`: marked loaded even with zero recordings, because
the synthesized layer needs no assets. -/
def loadWindPlayer (files : List Nat) (fetch : Nat → Option Nat) : WindPlayerState :=
  ⟨files.filterMap fetch, true, false⟩

/-- The player `_loadScene` builds for a configuration, `none` when the
`loop` branch bails out on an empty file list (AudioEngine.js lines
206-211). -/
def mkPlayer (cfg : SceneConfig) (fetch : Nat → Option Nat) : Option Player :=
  match cfg with
  | .loop files _ => if files.isEmpty then none else some (.loop (loadLoopPlayer files fetch))
  | .cafe amb sfx _ => some (.cafe (loadCafePlayer amb sfx fetch))
  | .wind files _ _ _ => some (.wind (loadWindPlayer files fetch))

/-- The engine's mutable fields (AudioEngine.js constructor).
`currentPlayer` holds the scene key whose player is current, mirroring the
object reference `this.currentPlayer = this.players.get(scene)`. -/
structure EngineState where
  isInitialized : Bool
  scenes : List (Nat × SceneConfig)
  players : List (Nat × Player)
  currentScene : Option Nat
  currentPlayer : Option Nat
  isPlaying : Bool
  loadingStatus : List (Nat × Bool)

/-- `_loadScene(scene)` (AudioEngine.js lines 175-226), with the fetches
resolved atomically via the oracle. -/
def loadScene (fetch : Nat → Option Nat) (scene : Nat) (st : EngineState) :
    EngineState :=
  if (assocFind scene st.players).isSome then st
  else
    match assocFind scene st.scenes with
    | none => st
    | some cfg =>
      match mkPlayer cfg fetch with
      | none => { st with loadingStatus := assocInsert scene true st.loadingStatus }
      | some player =>
        { st with
            players := assocInsert scene player st.players
            loadingStatus :=
              assocInsert scene false (assocInsert scene true st.loadingStatus) }

/-- `isSceneLoaded(scene)` (AudioEngine.js lines 233-235). -/
def isSceneLoaded (scene : Nat) (st : EngineState) : Bool :=
  match assocFind scene st.players with
  | some p => p.isLoaded
  | none => false

/-- Replace a stored player by the image of `f`; a no-op when the scene has
no player. -/
def updatePlayer (scene : Nat) (f : Player → Player) (st : EngineState) :
    EngineState :=
  match assocFind scene st.players with
  | some p => { st with players := assocInsert scene (f p) st.players }
  | none => st

/-- The `isPlaying` flag of the player stored for `scene`. -/
def playerPlaying (scene : Nat) (st : EngineState) : Option Bool :=
  (assocFind scene st.players).map Player.isPlaying

/-- The tail of `play(scene)` once the target scene is known loaded
(AudioEngine.js lines 263-276): stop the current player with a
zero-duration fade, start the target player, set the current state. -/
def enginePlayLoaded (scene : Nat) (st₁ : EngineState) : EngineState :=
  let st₂ :=
    match st₁.currentPlayer with
    | some cp => updatePlayer cp (Player.stop 0) st₁
    | none => st₁
  let st₃ := updatePlayer scene Player.start st₂
  { st₃ with
      currentPlayer := some scene
      currentScene := some scene
      isPlaying := true }

/-- `play(scene)` (AudioEngine.js lines 241-277). -/
def enginePlay (fetch : Nat → Option Nat) (scene : Nat) (st : EngineState) :
    EngineState :=
  if st.isInitialized = false then st
  else if st.currentScene = some scene ∧ st.isPlaying = true then st
  else
    let st₁ := if isSceneLoaded scene st = false then loadScene fetch scene st else st
    if isSceneLoaded scene st₁ = false then st₁
    else enginePlayLoaded scene st₁

/-- The tail of `switchScene(scene, fadeTime)` once the target scene is
known loaded (AudioEngine.js lines 317-332): start the new player, set the
current-scene state, then fade out the old player. -/
def engineSwitchLoaded (scene : Nat) (fadeTime : ℚ) (st₁ : EngineState) :
    EngineState :=
  let oldPlayer := st₁.currentPlayer
  let st₂ := updatePlayer scene Player.start st₁
  let st₃ :=
    { st₂ with
        currentPlayer := some scene
        currentScene := some scene
        isPlaying := true }
  match oldPlayer with
  | some op => updatePlayer op (Player.stop fadeTime) st₃
  | none => st₃

/-- `switchScene(scene, fadeTime)` (AudioEngine.js lines 300-333). -/
def engineSwitchScene (fetch : Nat → Option Nat) (scene : Nat) (fadeTime : ℚ)
    (st : EngineState) : EngineState :=
  if st.isInitialized = false then st
  else if st.currentScene = some scene then st
  else
    let st₁ := if isSceneLoaded scene st = false then loadScene fetch scene st else st
    if isSceneLoaded scene st₁ = false then st₁
    else engineSwitchLoaded scene fadeTime st₁

/-! ## Engine helper lemmas -/

theorem loadScene_playback_eq (fetch : Nat → Option Nat) (scene : Nat)
    (st : EngineState) :
    (loadScene fetch scene st).currentScene = st.currentScene ∧
    (loadScene fetch scene st).currentPlayer = st.currentPlayer ∧
    (loadScene fetch scene st).isPlaying = st.isPlaying ∧
    (loadScene fetch scene st).isInitialized = st.isInitialized := by
  rw [loadScene]
  split
  · exact ⟨rfl, rfl, rfl, rfl⟩
  · split
    · exact ⟨rfl, rfl, rfl, rfl⟩
    · split
      · exact ⟨rfl, rfl, rfl, rfl⟩
      · exact ⟨rfl, rfl, rfl, rfl⟩

theorem Player.isLoaded_start (p : Player) :
    (Player.start p).isLoaded = p.isLoaded := by
  cases p <;> rw [Player.start] <;> split <;> rfl

theorem Player.isPlaying_start (p : Player) (h : p.isLoaded = true) :
    (Player.start p).isPlaying = true := by
  cases p with
  | loop q =>
    rw [Player.start]
    by_cases hp : q.isPlaying
    · rw [if_neg (by simp [hp])]; exact hp
    · rw [if_pos ⟨h, hp⟩]; rfl
  | cafe q =>
    rw [Player.start]
    by_cases hp : q.isPlaying
    · rw [if_neg (by simp [hp])]; exact hp
    · rw [if_pos ⟨h, hp⟩]; rfl
  | wind q =>
    rw [Player.start]
    by_cases hp : q.isPlaying
    · rw [if_neg (by simp [hp])]; exact hp
    · rw [if_pos ⟨h, hp⟩]; rfl

theorem Player.isLoaded_stop (f : ℚ) (p : Player) :
    (Player.stop f p).isLoaded = p.isLoaded := by
  cases p <;> rw [Player.stop] <;> split <;> rfl

theorem Player.isPlaying_stop (f : ℚ) (p : Player) :
    (Player.stop f p).isPlaying = false := by
  cases p with
  | loop q =>
    rw [Player.stop]
    by_cases hp : q.isPlaying
    · rw [if_pos hp]; rfl
    · rw [if_neg hp]; simpa [Player.isPlaying] using hp
  | cafe q =>
    rw [Player.stop]
    by_cases hp : q.isPlaying
    · rw [if_pos hp]; rfl
    · rw [if_neg hp]; simpa [Player.isPlaying] using hp
  | wind q =>
    rw [Player.stop]
    by_cases hp : q.isPlaying
    · rw [if_pos hp]; rfl
    · rw [if_neg hp]; simpa [Player.isPlaying] using hp

theorem updatePlayer_fields (scene : Nat) (f : Player → Player)
    (st : EngineState) :
    (updatePlayer scene f st).currentScene = st.currentScene ∧
    (updatePlayer scene f st).currentPlayer = st.currentPlayer ∧
    (updatePlayer scene f st).isPlaying = st.isPlaying := by
  rw [updatePlayer]
  split
  · exact ⟨rfl, rfl, rfl⟩
  · exact ⟨rfl, rfl, rfl⟩

theorem assocFind_updatePlayer_self (scene : Nat) (f : Player → Player)
    (st : EngineState) :
    assocFind scene (updatePlayer scene f st).players =
      (assocFind scene st.players).map f := by
  rw [updatePlayer]
  cases h : assocFind scene st.players with
  | none => simp [h]
  | some p => simp [h, assocInsert, assocFind]

theorem assocFind_updatePlayer_other (scene other : Nat) (f : Player → Player)
    (st : EngineState) (hne : other ≠ scene) :
    assocFind other (updatePlayer scene f st).players =
      assocFind other st.players := by
  rw [updatePlayer]
  cases h : assocFind scene st.players with
  | none => rfl
  | some p => simp [assocInsert, assocFind, Ne.symm hne]

/-! ## Theorems about scene loading (claim C5) -/

theorem isSceneLoaded_loadScene (fetch : Nat → Option Nat) (scene : Nat)
    (st : EngineState) (cfg : SceneConfig)
    (hplayers : assocFind scene st.players = none)
    (hcfg : assocFind scene st.scenes = some cfg) :
    isSceneLoaded scene (loadScene fetch scene st) =
      (mkPlayer cfg fetch).elim false Player.isLoaded := by
  rw [loadScene, if_neg (by simp [hplayers]), hcfg]
  cases hmk : mkPlayer cfg fetch with
  | none => simp [hmk, isSceneLoaded, hplayers]
  | some p => simp [hmk, isSceneLoaded, assocInsert, assocFind]

/-- Counterexample to C5 as stated: a wind scene whose three asset paths
all fail to load still reports `isSceneLoaded = true` (the synthesized
layer needs no assets), and a cafe scene whose ambience fails but whose
two sfx assets load reports `isSceneLoaded = false`. -/
theorem isSceneLoaded_counterexample :
    (([1, 2, 3] : List Nat).filterMap (fun _ => (none : Option Nat)) = [] ∧
      isSceneLoaded 0
        (loadScene (fun _ => none) 0
          ⟨true, [(0, SceneConfig.wind [1, 2, 3] 0.35 0.65 4)], [], none,
            none, false, []⟩) = true) ∧
    (([8, 9] : List Nat).filterMap
        (fun u => if u = 7 then none else some u) = [8, 9] ∧
      isSceneLoaded 0
        (loadScene (fun u => if u = 7 then none else some u) 0
          ⟨true, [(0, SceneConfig.cafe (some 7) [8, 9] 6)], [], none,
            none, false, []⟩) = false) := by
  refine ⟨⟨rfl, ?_⟩, ⟨rfl, ?_⟩⟩ <;> rfl

/-- Claim C5, amended: after `_loadScene` settles for a scene that had no
player yet, `isSceneLoaded(scene)` depends on the player variant: for the
Uniform Loop variant it is true iff at least one configured asset decoded;
for the Cafe (layered) variant it is true iff the single ambience asset
decoded, regardless of the sfx assets; for the Wind (blended) variant it is
always true, even when every configured asset failed. -/
theorem isSceneLoaded_amended (fetch : Nat → Option Nat) (st : EngineState)
    (scene : Nat) (hplayers : assocFind scene st.players = none) :
    (∀ files cf, assocFind scene st.scenes = some (.loop files cf) →
      (isSceneLoaded scene (loadScene fetch scene st) = true ↔
        files.filterMap fetch ≠ [])) ∧
    (∀ amb sfx iv, assocFind scene st.scenes = some (.cafe amb sfx iv) →
      (isSceneLoaded scene (loadScene fetch scene st) = true ↔
        (amb.bind fetch).isSome = true)) ∧
    (∀ files a b c, assocFind scene st.scenes = some (.wind files a b c) →
      isSceneLoaded scene (loadScene fetch scene st) = true) := by
  refine ⟨?_, ?_, ?_⟩
  · intro files cf hcfg
    rw [isSceneLoaded_loadScene fetch scene st _ hplayers hcfg]
    cases files with
    | nil => simp [mkPlayer]
    | cons hd tl =>
      simp [mkPlayer, loadLoopPlayer, Player.isLoaded, List.isEmpty_iff]
  · intro amb sfx iv hcfg
    rw [isSceneLoaded_loadScene fetch scene st _ hplayers hcfg]
    simp [mkPlayer, loadCafePlayer, Player.isLoaded]
  · intro files a b c hcfg
    rw [isSceneLoaded_loadScene fetch scene st _ hplayers hcfg]
    simp [mkPlayer, loadWindPlayer, Player.isLoaded]

/-- Witness for the amended C5: a loop scene with one failing and one
succeeding asset reports loaded. -/
theorem isSceneLoaded_amended_witness :
    isSceneLoaded 0
      (loadScene (fun u => if u = 1 then none else some u) 0
        ⟨true, [(0, SceneConfig.loop [1, 2] 3)], [], none, none, false,
          []⟩) = true :=
  ((isSceneLoaded_amended (fun u => if u = 1 then none else some u)
      ⟨true, [(0, SceneConfig.loop [1, 2] 3)], [], none, none, false, []⟩
      0 rfl).1 [1, 2] 3 rfl).mpr (by decide)

/-! ## Theorems about engine play (claim C6) -/

theorem isSceneLoaded_iff_exists (scene : Nat) (st : EngineState) :
    isSceneLoaded scene st = true ↔
      ∃ p, assocFind scene st.players = some p ∧ p.isLoaded = true := by
  rw [isSceneLoaded]
  cases h : assocFind scene st.players with
  | none => simp
  | some p => simp

theorem enginePlayLoaded_current (scene : Nat) (st₁ : EngineState) :
    (enginePlayLoaded scene st₁).currentScene = some scene ∧
    (enginePlayLoaded scene st₁).currentPlayer = some scene ∧
    (enginePlayLoaded scene st₁).isPlaying = true := by
  rw [enginePlayLoaded]
  cases st₁.currentPlayer <;> exact ⟨rfl, rfl, rfl⟩

theorem enginePlayLoaded_starts_target (scene : Nat) (st₁ : EngineState)
    (hl : isSceneLoaded scene st₁ = true) :
    playerPlaying scene (enginePlayLoaded scene st₁) = some true := by
  obtain ⟨p, hp, hpl⟩ := (isSceneLoaded_iff_exists scene st₁).mp hl
  rw [enginePlayLoaded]
  cases hcp : st₁.currentPlayer with
  | none =>
    rw [playerPlaying]
    have hfind :
        assocFind scene (updatePlayer scene Player.start st₁).players =
          some (Player.start p) := by
      rw [assocFind_updatePlayer_self, hp]
      rfl
    rw [hfind]
    simp [Player.isPlaying_start p hpl]
  | some cp =>
    rw [playerPlaying]
    by_cases hcs : cp = scene
    · subst hcs
      have hmid :
          assocFind cp (updatePlayer cp (Player.stop 0) st₁).players =
            some (Player.stop 0 p) := by
        rw [assocFind_updatePlayer_self, hp]
        rfl
      have hfind :
          assocFind cp (updatePlayer cp Player.start
            (updatePlayer cp (Player.stop 0) st₁)).players =
            some (Player.start (Player.stop 0 p)) := by
        rw [assocFind_updatePlayer_self, hmid]
        rfl
      rw [hfind]
      have : (Player.stop 0 p).isLoaded = true := by
        rw [Player.isLoaded_stop]
        exact hpl
      simp [Player.isPlaying_start _ this]
    · have hmid :
          assocFind scene (updatePlayer cp (Player.stop 0) st₁).players =
            some p := by
        rw [assocFind_updatePlayer_other cp scene _ _ (fun h => hcs h.symm)]
        exact hp
      have hfind :
          assocFind scene (updatePlayer scene Player.start
            (updatePlayer cp (Player.stop 0) st₁)).players =
            some (Player.start p) := by
        rw [assocFind_updatePlayer_self, hmid]
        rfl
      rw [hfind]
      simp [Player.isPlaying_start p hpl]

theorem enginePlayLoaded_stops_old (scene : Nat) (st₁ : EngineState)
    (cp : Nat) (p : Player) (hcp : st₁.currentPlayer = some cp)
    (hne : cp ≠ scene) (hp : assocFind cp st₁.players = some p) :
    playerPlaying cp (enginePlayLoaded scene st₁) = some false := by
  rw [enginePlayLoaded, hcp, playerPlaying]
  have hmid :
      assocFind cp (updatePlayer cp (Player.stop 0) st₁).players =
        some (Player.stop 0 p) := by
    rw [assocFind_updatePlayer_self, hp]
    rfl
  have hfind :
      assocFind cp (updatePlayer scene Player.start
        (updatePlayer cp (Player.stop 0) st₁)).players =
        some (Player.stop 0 p) := by
    rw [assocFind_updatePlayer_other scene cp _ _ hne]
    exact hmid
  rw [hfind]
  simp [Player.isPlaying_stop]

/-- Claim C6: `play(scene)` on an initialized engine is a no-op when the
scene is current and playing; otherwise it first ensures the target player
is loaded, and when even after loading the scene is unusable it leaves
`currentScene`, `currentPlayer` and `isPlaying` untouched; when the target
is usable it stops the previous player (zero-duration fade), starts the
target player, and sets `currentScene`, `currentPlayer` and `isPlaying`. -/
theorem enginePlay_spec (fetch : Nat → Option Nat) (scene : Nat)
    (st : EngineState) (hinit : st.isInitialized = true) :
    (st.currentScene = some scene ∧ st.isPlaying = true →
      enginePlay fetch scene st = st) ∧
    (∀ st₁,
      st₁ = (if isSceneLoaded scene st = false then loadScene fetch scene st
        else st) →
      ¬(st.currentScene = some scene ∧ st.isPlaying = true) →
      (isSceneLoaded scene st₁ = false →
        enginePlay fetch scene st = st₁ ∧
        st₁.currentScene = st.currentScene ∧
        st₁.currentPlayer = st.currentPlayer ∧
        st₁.isPlaying = st.isPlaying) ∧
      (isSceneLoaded scene st₁ = true →
        enginePlay fetch scene st = enginePlayLoaded scene st₁ ∧
        (enginePlay fetch scene st).currentScene = some scene ∧
        (enginePlay fetch scene st).currentPlayer = some scene ∧
        (enginePlay fetch scene st).isPlaying = true ∧
        playerPlaying scene (enginePlay fetch scene st) = some true ∧
        (∀ cp p, st₁.currentPlayer = some cp → cp ≠ scene →
          assocFind cp st₁.players = some p →
          playerPlaying cp (enginePlay fetch scene st) = some false))) := by
  have hinit' : ¬(st.isInitialized = false) := by simp [hinit]
  constructor
  · intro hcur
    rw [enginePlay, if_neg hinit', if_pos hcur]
  · intro st₁ hst₁ hncur
    have hfields : st₁.currentScene = st.currentScene ∧
        st₁.currentPlayer = st.currentPlayer ∧
        st₁.isPlaying = st.isPlaying := by
      rw [hst₁]
      by_cases hld : isSceneLoaded scene st = false
      · rw [if_pos hld]
        obtain ⟨h1, h2, h3, _⟩ := loadScene_playback_eq fetch scene st
        exact ⟨h1, h2, h3⟩
      · rw [if_neg hld]
        exact ⟨rfl, rfl, rfl⟩
    constructor
    · intro hnl
      refine ⟨?_, hfields.1, hfields.2.1, hfields.2.2⟩
      rw [enginePlay, if_neg hinit', if_neg hncur]
      simp only [← hst₁]
      rw [if_pos hnl]
    · intro hl
      have heq : enginePlay fetch scene st = enginePlayLoaded scene st₁ := by
        rw [enginePlay, if_neg hinit', if_neg hncur]
        simp only [← hst₁]
        rw [if_neg (by simp [hl])]
      obtain ⟨h1, h2, h3⟩ := enginePlayLoaded_current scene st₁
      refine ⟨heq, ?_, ?_, ?_, ?_, ?_⟩
      · rw [heq]; exact h1
      · rw [heq]; exact h2
      · rw [heq]; exact h3
      · rw [heq]; exact enginePlayLoaded_starts_target scene st₁ hl
      · intro cp p hcp hne hp
        rw [heq]
        exact enginePlayLoaded_stops_old scene st₁ cp p hcp hne hp

/-- Witness for C6 on a concrete engine: playing the unloaded loop scene
`0` loads it, starts it and sets the current state. -/
theorem enginePlay_spec_witness :
    enginePlay (fun u => some u) 0
        ⟨true, [(0, SceneConfig.loop [5] 2)], [], none, none, false, []⟩ =
      enginePlayLoaded 0
        (loadScene (fun u => some u) 0
          ⟨true, [(0, SceneConfig.loop [5] 2)], [], none, none, false, []⟩) ∧
    (enginePlay (fun u => some u) 0
        ⟨true, [(0, SceneConfig.loop [5] 2)], [], none, none, false,
          []⟩).currentScene = some 0 :=
  by
  have h := ((enginePlay_spec (fun u => some u) 0
      ⟨true, [(0, SceneConfig.loop [5] 2)], [], none, none, false, []⟩
      rfl).2
      (loadScene (fun u => some u) 0
        ⟨true, [(0, SceneConfig.loop [5] 2)], [], none, none, false, []⟩)
      rfl (by simp)).2 rfl
  exact ⟨h.1, h.2.1⟩

/-! ## useStay.js and the transition lock (claim C1)

The `switchScene` action of the hook owns the transition lock
`isSwitchingRef`.  The JavaScript function suspends at `await ensureInit()`
and at the awaited engine call; the lock is taken synchronously after
`ensureInit` resolves and released in the `finally` block.  The call is
therefore embedded in two phases: the prologue (guards, lock acquisition,
`setPlaybackState('switching')`) and the body (the engine call and the
state updates through the `finally`).  A reentrant call that arrives while
the first call is between those phases sees the lock held; the model
returns the rejection outcome and, by construction, carries no
continuation: nothing is queued.  `initOk` is the oracle for whether
`engine.init()` would succeed on a not-yet-initialized engine. -/

/-- The hook's `playbackState` state machine. -/
inductive PlaybackState
  | idle
  | switching
  | playing
  deriving DecidableEq

/-- The hook state relevant to `switchScene`: the engine it drives, the
`currentScene` / `isPlaying` React state, the `playbackState` machine and
the `isSwitchingRef` lock. -/
structure StayState where
  engine : EngineState
  currentScene : Nat
  isPlaying : Bool
  playbackState : PlaybackState
  isSwitching : Bool

/-- How a `switchScene` call returned. -/
inductive SwitchOutcome
  | initFailed
  /-- the lock was held: warn and return, nothing queued or retried -/
  | rejectedBusy
  | noopSameScene
  | completed
  deriving DecidableEq

/-- `ensureInit()` (useStay.js lines 169-181): `true` immediately when the
engine is initialized, otherwise attempt `engine.init()`. -/
def ensureInit (initOk : Bool) (s : StayState) : StayState × Bool :=
  if s.engine.isInitialized = true then (s, true)
  else if initOk then
    ({ s with engine := { s.engine with isInitialized := true } }, true)
  else (s, false)

/-- Result of the guard phase of `switchScene`. -/
inductive PrologueResult
  | rejectedBusy
  | noopSameScene
  | proceed
  deriving DecidableEq

/-- The guard phase of `switchScene(newScene)` (useStay.js lines 243-257):
reject while the lock is held; no-op when the scene is already playing;
otherwise take the lock and enter `switching`. -/
def switchScenePrologue (newScene : Nat) (s : StayState) :
    StayState × PrologueResult :=
  if s.isSwitching = true then (s, .rejectedBusy)
  else if newScene = s.currentScene ∧ s.isPlaying = true then
    (s, .noopSameScene)
  else
    ({ s with isSwitching := true, playbackState := .switching }, .proceed)

/-- The body of `switchScene(newScene)` after the lock is taken (useStay.js
lines 259-281): crossfade via `engine.switchScene` when another scene is
playing, else `engine.play`; then set the React state and release the lock
in `finally`.  `3` is `CONFIG.FADE_DURATION`. -/
def switchSceneBody (fetch : Nat → Option Nat) (newScene : Nat)
    (s : StayState) : StayState :=
  let engine' :=
    if s.isPlaying = true ∧ newScene ≠ s.currentScene then
      engineSwitchScene fetch newScene 3 s.engine
    else enginePlay fetch newScene s.engine
  { engine := engine'
    currentScene := newScene
    isPlaying := true
    playbackState := .playing
    isSwitching := false }

/-- A whole `switchScene(newScene)` call (useStay.js lines 235-282). -/
def useStaySwitchScene (fetch : Nat → Option Nat) (initOk : Bool)
    (newScene : Nat) (s : StayState) : StayState × SwitchOutcome :=
  match ensureInit initOk s with
  | (s', false) => (s', .initFailed)
  | (s', true) =>
    match switchScenePrologue newScene s' with
    | (s₁, .rejectedBusy) => (s₁, .rejectedBusy)
    | (s₁, .noopSameScene) => (s₁, .noopSameScene)
    | (s₁, .proceed) => (switchSceneBody fetch newScene s₁, .completed)

theorem ensureInit_initialized (initOk : Bool) (s s' : StayState)
    (h : ensureInit initOk s = (s', true)) :
    s'.engine.isInitialized = true := by
  rw [ensureInit] at h
  by_cases h₁ : s.engine.isInitialized = true
  · rw [if_pos h₁] at h
    cases h
    exact h₁
  · rw [if_neg h₁] at h
    by_cases h₂ : initOk = true
    · rw [if_pos h₂] at h
      cases h
      rfl
    · rw [if_neg h₂] at h
      exact absurd (congrArg Prod.snd h) (by simp)

theorem switchScenePrologue_proceed (newScene : Nat) (s s₁ : StayState)
    (h : switchScenePrologue newScene s = (s₁, .proceed)) :
    s₁ = { s with isSwitching := true, playbackState := .switching } := by
  rw [switchScenePrologue] at h
  by_cases h₁ : s.isSwitching = true
  · rw [if_pos h₁] at h
    exact absurd (congrArg Prod.snd h) (by simp)
  · rw [if_neg h₁] at h
    by_cases h₂ : newScene = s.currentScene ∧ s.isPlaying = true
    · rw [if_pos h₂] at h
      exact absurd (congrArg Prod.snd h) (by simp)
    · rw [if_neg h₂] at h
      exact (congrArg Prod.fst h).symm

/-- Claim C1: when a first `switchScene` call has passed its prologue (lock
taken, state machine in `switching`) and is suspended in its awaited engine
call, any second `switchScene` call — whatever scene it requests and
whatever its oracles — returns the rejection outcome with the state
exactly as it found it: no engine change, no player started or stopped, no
state-machine transition, and no continuation is queued.  The first call's
remaining body then computes exactly what it would have computed had the
second call never happened, and the first call as a whole equals its
prologue followed by its body. -/
theorem switchScene_reentrant_rejected (fetch fetch' : Nat → Option Nat)
    (initOk initOk' : Bool) (s₀ s' s₁ : StayState) (ns ns' : Nat)
    (h1 : ensureInit initOk s₀ = (s', true))
    (h2 : switchScenePrologue ns s' = (s₁, .proceed)) :
    useStaySwitchScene fetch' initOk' ns' s₁ = (s₁, .rejectedBusy) ∧
    switchSceneBody fetch ns (useStaySwitchScene fetch' initOk' ns' s₁).1 =
      switchSceneBody fetch ns s₁ ∧
    useStaySwitchScene fetch initOk ns s₀ =
      (switchSceneBody fetch ns s₁, .completed) := by
  have hs₁ := switchScenePrologue_proceed ns s' s₁ h2
  have hinit₁ : s₁.engine.isInitialized = true := by
    rw [hs₁]
    exact ensureInit_initialized initOk s₀ s' h1
  have hlock : s₁.isSwitching = true := by
    rw [hs₁]
  have hsecond : useStaySwitchScene fetch' initOk' ns' s₁ =
      (s₁, .rejectedBusy) := by
    simp only [useStaySwitchScene, ensureInit, if_pos hinit₁,
      switchScenePrologue, if_pos hlock]
  refine ⟨hsecond, ?_, ?_⟩
  · rw [hsecond]
  · simp only [useStaySwitchScene, h1, h2]

/-- Witness for C1 at a concrete state: the engine is initialized, the
first call to scene `1` has taken the lock, and a second call to scene `2`
is rejected with the state unchanged. -/
theorem switchScene_reentrant_rejected_witness :
    useStaySwitchScene (fun u => some u) true 2
        ⟨⟨true, [], [], none, none, false, []⟩, 0, false,
          PlaybackState.switching, true⟩ =
      (⟨⟨true, [], [], none, none, false, []⟩, 0, false,
        PlaybackState.switching, true⟩, .rejectedBusy) :=
  (switchScene_reentrant_rejected (fun u => some u) (fun u => some u)
    true true
    ⟨⟨true, [], [], none, none, false, []⟩, 0, false,
      PlaybackState.idle, false⟩
    ⟨⟨true, [], [], none, none, false, []⟩, 0, false,
      PlaybackState.idle, false⟩
    ⟨⟨true, [], [], none, none, false, []⟩, 0, false,
      PlaybackState.switching, true⟩
    1 2 rfl rfl).1

/-! ## Wall-clock ordering of engine stop (claim C7)

`AudioEngine.stop(fadeTime)` awaits `currentPlayer.stop(fadeTime)` and only
then clears `currentPlayer` / `currentScene` / `isPlaying`.
`LoopPlayer.stop` schedules the gain ramp to zero on the audio clock at
`now`, sleeps `fadeTime` on the cooperative scheduler and then stops and
disconnects the source.  The embedding emits the timed events each phase
produces; the resolution time of the awaited call carries the suspension. -/

/-- What happens during a stop, in wall-clock order. -/
inductive StopEventTag
  /-- `setValueAtTime` + `linearRampToValueAtTime(0, now + fade)` issued -/
  | gainRampStart
  /-- the scheduled ramp reaches zero -/
  | gainReachesZero
  /-- `currentSource.stop()` / `disconnect()` after the sleep -/
  | sourceStopped
  /-- the engine nulls `currentPlayer` / `currentScene` / `isPlaying` -/
  | engineStateCleared
  deriving DecidableEq

/-- An event with the audio-clock time at which it takes effect. -/
structure TimedEvent where
  time : ℚ
  tag : StopEventTag
  deriving DecidableEq

/-- The `LoopPlayer` fields `stop` touches (LoopPlayer.js lines 198-226). -/
structure LoopStopState where
  isPlaying : Bool
  nextTimeout : Option Nat
  currentSource : Option Nat
  currentGain : Option Nat
  deriving DecidableEq

/-- `LoopPlayer.stop(fadeTime)` with its wall-clock trace: a no-op while
not playing; otherwise clear the next-track timer, and when a source is
live, ramp its gain to zero over `fadeTime`, sleep `fadeTime`, then stop
and disconnect.  Also returns the time at which the returned promise
resolves. -/
def loopPlayerStopTimed (t0 fade : ℚ) (p : LoopStopState) :
    LoopStopState × List TimedEvent × ℚ :=
  if p.isPlaying = false then (p, [], t0)
  else
    let p₁ : LoopStopState := { p with isPlaying := false, nextTimeout := none }
    match p.currentGain, p.currentSource with
    | some _, some _ =>
      ({ p₁ with currentSource := none, currentGain := none },
        [⟨t0, .gainRampStart⟩, ⟨t0 + fade, .gainReachesZero⟩,
          ⟨t0 + fade, .sourceStopped⟩], t0 + fade)
    | _, _ => (p₁, [], t0)

/-- The engine fields `stop` touches. -/
structure EngineTimed where
  currentScene : Option Nat
  currentPlayerState : Option LoopStopState
  isPlaying : Bool
  deriving DecidableEq

/-- `AudioEngine.stop(fadeTime)` (AudioEngine.js lines 283-293): return
unless playing with a current player; await the player's stop; clear the
current-scene state at the time the awaited stop resolves. -/
def engineStopTimed (t0 fade : ℚ) (st : EngineTimed) :
    EngineTimed × List TimedEvent :=
  match st.isPlaying, st.currentPlayerState with
  | true, some p =>
    let r := loopPlayerStopTimed t0 fade p
    (⟨none, none, false⟩, r.2.1 ++ [⟨r.2.2, .engineStateCleared⟩])
  | _, _ => (st, [])

/-- Claim C7: on a playing engine whose current `LoopPlayer` has a live
source, `stop(fadeTime)` produces exactly the trace: gain ramp to silence
issued at the call time, ramp completing `fadeTime` later, the source
stopped and disconnected at that same instant, and the engine's
current-scene/playing state cleared last, also at `t0 + fadeTime` — so the
state clear never precedes the fade completion, and the final state has
`currentScene`, `currentPlayer` and `isPlaying` cleared. -/
theorem engineStop_clears_state_after_fade (t0 fade : ℚ) (hfade : 0 ≤ fade)
    (st : EngineTimed) (p : LoopStopState) (src gain : Nat)
    (hplay : st.isPlaying = true) (hcp : st.currentPlayerState = some p)
    (hpplay : p.isPlaying = true) (hsrc : p.currentSource = some src)
    (hgain : p.currentGain = some gain) :
    engineStopTimed t0 fade st =
      (⟨none, none, false⟩,
        [⟨t0, .gainRampStart⟩, ⟨t0 + fade, .gainReachesZero⟩,
          ⟨t0 + fade, .sourceStopped⟩, ⟨t0 + fade, .engineStateCleared⟩]) ∧
    ((engineStopTimed t0 fade st).2.getLast? =
      some ⟨t0 + fade, .engineStateCleared⟩) ∧
    (∀ e ∈ (engineStopTimed t0 fade st).2, e.time ≤ t0 + fade) := by
  have hstop : loopPlayerStopTimed t0 fade p =
      (({ p with
          isPlaying := false
          nextTimeout := none
          currentSource := none
          currentGain := none } : LoopStopState),
        [⟨t0, .gainRampStart⟩, ⟨t0 + fade, .gainReachesZero⟩,
          ⟨t0 + fade, .sourceStopped⟩], t0 + fade) := by
    rw [loopPlayerStopTimed, if_neg (by simp [hpplay]), hgain, hsrc]
  have htrace : engineStopTimed t0 fade st =
      (⟨none, none, false⟩,
        [⟨t0, .gainRampStart⟩, ⟨t0 + fade, .gainReachesZero⟩,
          ⟨t0 + fade, .sourceStopped⟩, ⟨t0 + fade, .engineStateCleared⟩]) := by
    rw [engineStopTimed, hplay, hcp]
    simp only [hstop]
    rfl
  refine ⟨htrace, ?_, ?_⟩
  · rw [htrace]
    rfl
  · intro e he
    rw [htrace] at he
    simp only [List.mem_cons, List.not_mem_nil, or_false] at he
    rcases he with h | h | h | h <;> simp [h, hfade]

/-- Witness for C7 at concrete times and state: stopping at `t0 = 10` with
a 3-second fade emits the ramp at 10 and clears the engine state at 13,
last. -/
theorem engineStop_clears_state_after_fade_witness :
    engineStopTimed 10 3 ⟨some 4, some ⟨true, some 7, some 5, some 6⟩, true⟩ =
      (⟨none, none, false⟩,
        [⟨10, .gainRampStart⟩, ⟨10 + 3, .gainReachesZero⟩,
          ⟨10 + 3, .sourceStopped⟩, ⟨10 + 3, .engineStateCleared⟩]) :=
  (engineStop_clears_state_after_fade 10 3 zero_le_three
    ⟨some 4, some ⟨true, some 7, some 5, some 6⟩, true⟩
    ⟨true, some 7, some 5, some 6⟩ 5 6 rfl rfl rfl rfl rfl).1

/-! ## Master-gain volume ramps (claim C8)

An exact model of a Web Audio `AudioParam` automation timeline restricted
to the two event kinds `setVolume` uses.  `cancelScheduledValues(t)`
removes every event whose event time is greater than or equal to `t` — for
a `linearRampToValueAtTime` the event time is the ramp's end time, so an
in-flight ramp is removed entirely.  The `value` getter evaluates the
remaining timeline at the current time. -/

/-- An automation event of the master gain. -/
inductive AEvent
  | setValueAtTime (v t : ℚ)
  | linearRampToValueAtTime (v t : ℚ)
  deriving DecidableEq

/-- The event time used by `cancelScheduledValues`. -/
def AEvent.time : AEvent → ℚ
  | .setValueAtTime _ t => t
  | .linearRampToValueAtTime _ t => t

/-- The gain parameter: its value before any event, and its (time-sorted)
event list. -/
structure AudioParam where
  initialValue : ℚ
  events : List AEvent
  deriving DecidableEq

/-- Timeline evaluation: walk the sorted events carrying the previous
event's value `v₀` and time `t₀`; a set event holds its value from its
time on; a ramp event interpolates linearly from the previous event to its
target and holds the target afterwards. -/
def valueFrom (v₀ t₀ : ℚ) : List AEvent → ℚ → ℚ
  | [], _ => v₀
  | .setValueAtTime v te :: rest, t =>
    if t < te then v₀ else valueFrom v te rest t
  | .linearRampToValueAtTime v te :: rest, t =>
    if t < te then
      (if te ≤ t₀ then v else v₀ + (v - v₀) * (t - t₀) / (te - t₀))
    else valueFrom v te rest t

/-- The `value` getter at audio-clock time `t`. -/
def AudioParam.valueAt (p : AudioParam) (t : ℚ) : ℚ :=
  valueFrom p.initialValue 0 p.events t

/-- `cancelScheduledValues(t)`: drop events with event time `≥ t`. -/
def cancelScheduledValues (t : ℚ) (p : AudioParam) : AudioParam :=
  { p with events := p.events.filter (fun e => decide (e.time < t)) }

/-- `setVolume(value, rampTime)` on the master gain (AudioEngine.js lines
340-349) issued at audio-clock time `now`: clamp to `[0,1]`, cancel the
scheduled events, pin the gain's *post-cancellation* instantaneous value at
`now`, and ramp linearly to the clamped target at `now + rampTime`. -/
def engineSetVolume (value rampTime now : ℚ) (p : AudioParam) : AudioParam :=
  let clamped := max 0 (min 1 value)
  let p₁ := cancelScheduledValues now p
  let cur := p₁.valueAt now
  { p₁ with events := p₁.events ++
      [.setValueAtTime cur now,
        .linearRampToValueAtTime clamped (now + rampTime)] }

/-- Claim C8 demonstration at the spec's own scenario, starting from a gain
holding `0`: `setVolume(0.2, 0.1)` at `t = 0` followed by
`setVolume(0.8, 0.1)` at `t = 0.05`.  Mid-ramp, just before the second
call, the gain reads `0.1`; the second call's `cancelScheduledValues(now)`
removes the in-flight ramp *before* `gain.value` is read, so the value is
pinned at `0` — the first ramp's start value, not the mid-ramp value — and
the gain jumps discontinuously from `0.1` to `0` before ramping to `0.8`. -/
theorem setVolume_second_call_discontinuity :
    (engineSetVolume (2/10) (1/10) 0 ⟨0, []⟩).valueAt (1/20) = 1/10 ∧
    (engineSetVolume (8/10) (1/10) (1/20)
      (engineSetVolume (2/10) (1/10) 0 ⟨0, []⟩)).valueAt (1/20) = 0 ∧
    (engineSetVolume (8/10) (1/10) (1/20)
      (engineSetVolume (2/10) (1/10) 0 ⟨0, []⟩)).valueAt (1/20) ≠
      (engineSetVolume (2/10) (1/10) 0 ⟨0, []⟩).valueAt (1/20) ∧
    (engineSetVolume (8/10) (1/10) (1/20)
      (engineSetVolume (2/10) (1/10) 0 ⟨0, []⟩)).valueAt (3/20) = 8/10 := by
  have h1 : engineSetVolume (2/10) (1/10) 0 ⟨0, []⟩ =
      ⟨0, [.setValueAtTime 0 0, .linearRampToValueAtTime (2/10) (1/10)]⟩ := by
    rw [engineSetVolume]
    norm_num [cancelScheduledValues, AudioParam.valueAt, valueFrom]
  have h2 : engineSetVolume (8/10) (1/10) (1/20)
      (engineSetVolume (2/10) (1/10) 0 ⟨0, []⟩) =
      ⟨0, [.setValueAtTime 0 0, .setValueAtTime 0 (1/20),
        .linearRampToValueAtTime (8/10) (3/20)]⟩ := by
    rw [h1, engineSetVolume]
    norm_num [cancelScheduledValues, AudioParam.valueAt, valueFrom,
      AEvent.time, List.filter]
  refine ⟨?_, ?_, ?_, ?_⟩
  · rw [h1]
    norm_num [AudioParam.valueAt, valueFrom]
  · rw [h2]
    norm_num [AudioParam.valueAt, valueFrom]
  · rw [h2, h1]
    norm_num [AudioParam.valueAt, valueFrom]
  · rw [h2]
    norm_num [AudioParam.valueAt, valueFrom]

end Stay
